import Mathlib

/-!
Shallow embedding of `src/main.rs` of the `reward` repository: a loot-table
rate viewer that discovers difficulty tiers, prefetches per-tier file listings
in background jobs, and memoizes both the listings and the computed rate
tables.  Network effects (reqwest) are modelled as explicit fetch oracles
`String → Except Unit String`; `f32` weight arithmetic is modelled by exact
rationals, which collapses `f32` rounding and overflow — so only structural
facts (lengths, positions, failure substitution) and concrete computations
that are exact in `f32` are proved about the rate arithmetic, never
tolerance properties; rayon's `par_iter().map().collect()` preserves input
order, so a parallel fan-out over a vector is modelled as `List.map`.
-/

namespace Reward

/-- `LootSpec` enum, `src/main.rs` lines 14-20 (type parameter `T: AsRef<str>`
instantiated at `String`, as in the program). -/
inductive LootSpec where
  | Item : String → LootSpec
  | ItemQuantity : String → Nat → Nat → LootSpec
  | LootTable : String → LootSpec
  | Nothing : LootSpec
deriving DecidableEq, Repr

/-- `TARGET_URL` constant, `src/main.rs` line 12. -/
def TARGET_URL : String := "https://raw.fastgit.org/EvanMeek/veloren-wecw-assets/main/"

/-- Models `item.replace(".", "/")` (`src/main.rs` line 218); the pattern is a
single character, so the replacement is a character map. -/
def dotSlash (s : String) : String :=
  String.mk (s.data.map (fun c => if c = '.' then '/' else c))

/-- The URL built for an item definition fetch, `src/main.rs` lines 210-221. -/
def itemUrl (item : String) : String :=
  TARGET_URL ++ dotSlash item ++ ".ron"

/-- Helper for the regex `".*?"` (`src/main.rs` line 224): from the characters
after an opening quote, lazily scan to the nearest closing quote on the same
line (`.` does not match a newline), returning the scanned characters with the
closing quote.  `none` when no closing quote occurs before a newline or the
end. -/
def closeQuote : List Char → Option (List Char)
  | [] => none
  | c :: rest =>
      if c = '"' then some ['"']
      else if c = '\n' then none
      else (closeQuote rest).map (fun t => c :: t)

/-- Leftmost match of the regex `".*?"` (`Regex::captures`, `src/main.rs`
lines 224-225), returned with its delimiting quotes: the first position
holding a `"` that is closed by another `"` with no newline in between; a
failed start position is retried one character later. -/
def findQuoted : List Char → Option (List Char)
  | [] => none
  | c :: rest =>
      if c = '"' then
        match closeQuote rest with
        | some t => some ('"' :: t)
        | none => findQuoted rest
      else findQuoted rest

/-- `parse_name` for the fetching variants: fetch the item definition document
and extract the display name, `src/main.rs` lines 218-230.  The match
`v[0]` includes the delimiting quotes; `.replace("\"", "")` removes every
quote character (`src/main.rs` line 226); an absent match yields `"无"`. -/
def resolveItemName (fetch : String → Except Unit String) (item : String) :
    Except Unit String :=
  match fetch (itemUrl item) with
  | .error e => .error e
  | .ok body =>
      .ok (match findQuoted body.data with
           | some v => String.mk (v.filter (fun c => c ≠ '"'))
           | none => "无")

/-- `parse_name`, `src/main.rs` lines 209-231: `LootTable` and `Nothing`
return constant labels with no fetch; `Item` and `ItemQuantity` fetch the item
definition (the quantity bounds are bound as `_min`/`_max` and ignored). -/
def parse_name (fetch : String → Except Unit String) : LootSpec → Except Unit String
  | .LootTable _ => .ok "道具包"
  | .Nothing => .ok "无"
  | .Item item => resolveItemName fetch item
  | .ItemQuantity item _ _ => resolveItemName fetch item

/-- `parse_name(&loot.1).unwrap_or(String::from("无"))`, `src/main.rs`
line 108. -/
def unwrapOr (r : Except Unit String) : String :=
  match r with
  | .ok n => n
  | .error _ => "无"

/-- Network fetches performed when resolving one spec's name: the fetching
variants of `parse_name` issue exactly one GET (`src/main.rs` line 222), the
constant variants none. -/
def specFetches : LootSpec → Nat
  | .Item _ => 1
  | .ItemQuantity _ _ _ => 1
  | .LootTable _ => 0
  | .Nothing => 0

/-- Per-file rate computation, `src/main.rs` lines 96-111: a failed parse is
replaced by the empty list, the total weight is summed, and each entry is
mapped (in input order) to `(weight, weight / total * 100, name)` with a
failed name resolution replaced by `"无"`.  The source computes the weights in
`f32`; the exact rationals used here have no rounding and no overflow (for
example, an `f32` total can round to `+inf` while the rational total stays
finite), so this definition supports only the structural claims and concrete
instances whose `f32` computation is exact, not numerical-tolerance
claims. -/
def rateRon (parseRes : Except Unit (List (ℚ × LootSpec)))
    (resolve : LootSpec → Except Unit String) : List (ℚ × ℚ × String) :=
  let loots := match parseRes with
    | .ok l => l
    | .error _ => []
  let weight : ℚ := (loots.map Prod.fst).sum
  loots.map (fun loot => (loot.1, loot.1 / weight * 100, unwrapOr (resolve loot.2)))

/-- Per-tier rate computation, `src/main.rs` lines 93-114: each file of the
tier is mapped (rayon keeps input order) to its named rate table.
`parseFn tier ron` is the oracle for `parse(&tier, &ron)`
(`src/main.rs` lines 194-207: GET of the raw document plus RON
deserialization, either of which may fail). -/
def computeTier (parseFn : String → String → Except Unit (List (ℚ × LootSpec)))
    (resolve : LootSpec → Except Unit String) (tier : String)
    (rons : List String) : List (String × List (ℚ × ℚ × String)) :=
  rons.map (fun ron => (ron, rateRon (parseFn tier ron) resolve))

/-- Network fetches performed while computing one file's rate table: one GET
for the raw document (even when deserialization then fails), plus one per
fetching loot spec. -/
def ronFetches (parseRes : Except Unit (List (ℚ × LootSpec))) : Nat :=
  let loots : List (ℚ × LootSpec) := match parseRes with
    | .ok l => l
    | .error _ => []
  1 + (loots.map (fun l => specFetches l.2)).sum

/-- Network fetches performed while computing a whole tier's rate tables. -/
def tierFetches (parseFn : String → String → Except Unit (List (ℚ × LootSpec)))
    (tier : String) (rons : List String) : Nat :=
  (rons.map (fun ron => ronFetches (parseFn tier ron))).sum

/-- A completed background listing job: the spawned task of `src/main.rs`
lines 48-51 returns `(tier, rons)`; a task that panicked surfaces as a join
error. -/
abbrev Listing := String × List String

/-- The `ron_future` map (`src/main.rs` line 26): tier key to pending join
handle, modelled by the job's eventual outcome. -/
abbrev FutMap := String → Option (Except Unit Listing)

/-- The `ron_cache` map (`src/main.rs` line 27): tier key to optional cached
listing (initialised to `None` per key at startup, line 53). -/
abbrev CacheMap := String → Option (Option Listing)

/-- The per-tier rate table stored in `rate_cache` (`src/main.rs` lines
28-29). -/
abbrev RateTable := List (String × List (ℚ × ℚ × String))

/-- The `rate_cache` map, `src/main.rs` lines 28-29. -/
abbrev RateMap := String → Option RateTable

/-- Result of the listing-resolution step: the resolved `(tier, rons)` value,
the updated future and cache maps, and how many times the background job (the
single holder of the tier's directory-listing fetch) was joined. -/
structure FilesResult where
  value : Listing
  fut : FutMap
  cache : CacheMap
  joins : Nat

/-- The listing-resolution step, `src/main.rs` lines 69-88: a key still in
`ron_future` is joined (a join error yields `Default::default()`), removed
from the future map, and its value stored into `ron_cache`; otherwise a cached
`Some` value is returned; otherwise `Default::default() = ("", [])`. -/
def resolveFiles (fut : FutMap) (cache : CacheMap) (choice : String) :
    FilesResult :=
  match fut choice with
  | some job =>
      let value := match job with
        | .ok v => v
        | .error _ => ("", [])
      { value := value
        fut := fun k => if k = choice then none else fut k
        cache := fun k => if k = choice then some (some value) else cache k
        joins := 1 }
  | none =>
      match cache choice with
      | some (some value) => { value := value, fut := fut, cache := cache, joins := 0 }
      | _ => { value := ("", []), fut := fut, cache := cache, joins := 0 }

/-- Result of the rate-resolution step: the rate table, the updated rate
cache, and the number of network fetches performed. -/
structure RatesResult where
  value : RateTable
  rc : RateMap
  fetches : Nat

/-- The rate-resolution step, `src/main.rs` lines 90-118: a cached table for
the tier is returned directly (no fetch); otherwise the tier is computed via
`computeTier` and published into the cache. -/
def resolveRates (rc : RateMap) (tier : String) (rons : List String)
    (parseFn : String → String → Except Unit (List (ℚ × LootSpec)))
    (resolve : LootSpec → Except Unit String) : RatesResult :=
  match rc tier with
  | some rate => { value := rate, rc := rc, fetches := 0 }
  | none =>
      let rons2 := computeTier parseFn resolve tier rons
      { value := rons2
        rc := fun k => if k = tier then some rons2 else rc k
        fetches := tierFetches parseFn tier rons }

/-- Rust `i32::from_str` (`key.parse::<i32>()`, `src/main.rs` line 35): an
optional sign followed by one or more ASCII digits, the value within `i32`
range. -/
def parseI32 (s : String) : Option Int :=
  let rest : List Char := match s.data with
    | '+' :: r => r
    | '-' :: r => r
    | r => r
  let sign : Int := match s.data with
    | '-' :: _ => -1
    | _ => 1
  if rest = [] then none
  else if rest.all (fun c => c.isDigit) then
    let n : Nat := rest.foldl (fun acc c => acc * 10 + (c.toNat - '0'.toNat)) 0
    let v : Int := sign * n
    if -(2 ^ 31) ≤ v ∧ v ≤ 2 ^ 31 - 1 then some v else none
  else none

/-- Rust `str::split('-')` semantics on characters: the pieces between
occurrences of the separator, keeping empty pieces (`"".split` gives `[""]`,
`"a-".split` gives `["a", ""]`). -/
def splitDash : List Char → List (List Char)
  | [] => [[]]
  | c :: rest =>
      if c = '-' then [] :: splitDash rest
      else
        match splitDash rest with
        | [] => [[c]]
        | h :: t => (c :: h) :: t

/-- Checked `i32` addition for `.add(1)` at `src/main.rs` line 35: `some` of
the sum while it stays in `i32` range, `none` on arithmetic overflow.  The
`none` outcome models the overflow of `i32::add`, which panics in a debug
build (a release build would wrap around instead; no theorem below asserts
anything about the overflow case). -/
def i32Add (a b : Int) : Option Int :=
  if -(2 ^ 31) ≤ a + b ∧ a + b ≤ 2 ^ 31 - 1 then some (a + b) else none

/-- Tier-key normalization of the startup loop, `src/main.rs` lines 33-38: a
tier name containing `-` takes `split("-")` piece `[1]`, parses it as `i32`
with `unwrap`, increments it in `i32`, and renders `T{n+1}`.  `none` models
the startup loop failing to produce a key: the `unwrap` panic when the piece
is not a valid `i32`, or the overflow of the `i32` increment.  A name without
`-` is kept as is. -/
def normalizeKey (tier : String) : Option String :=
  if tier.data.contains '-' then
    let piece := String.mk ((splitDash tier.data).getD 1 [])
    match parseI32 piece with
    | some n =>
        match i32Add n 1 with
        | some m => some ("T" ++ toString m)
        | none => none
    | none => none
  else some tier

/-! ### Helper lemmas -/

lemma rateRon_len (parseRes : Except Unit (List (ℚ × LootSpec)))
    (resolve : LootSpec → Except Unit String) :
    (rateRon parseRes resolve).length
      = (match parseRes with
         | .ok l => l
         | .error _ => []).length := by
  cases parseRes <;> simp [rateRon]

lemma rateRon_get? (loots : List (ℚ × LootSpec))
    (resolve : LootSpec → Except Unit String) (i : Nat) (w : ℚ) (s : LootSpec)
    (h : loots.get? i = some (w, s)) :
    (rateRon (.ok loots) resolve).get? i
      = some (w, w / (loots.map Prod.fst).sum * 100, unwrapOr (resolve s)) := by
  simp only [rateRon, List.get?_map, h, Option.map_some']

lemma closeQuote_append (n b : List Char) (hn : ∀ c ∈ n, c ≠ '"' ∧ c ≠ '\n') :
    closeQuote (n ++ '"' :: b) = some (n ++ ['"']) := by
  induction n with
  | nil => simp [closeQuote]
  | cons c cs ih =>
      have hc := hn c (by simp)
      have ih2 := ih (fun x hx => hn x (by simp [hx]))
      simp [closeQuote, hc.1, hc.2, ih2]

lemma findQuoted_skip (a : List Char) (rest : List Char)
    (ha : ∀ c ∈ a, c ≠ '"') :
    findQuoted (a ++ rest) = findQuoted rest := by
  induction a with
  | nil => rfl
  | cons c cs ih =>
      have hc := ha c (by simp)
      simp only [List.cons_append, findQuoted, if_neg hc]
      exact ih (fun x hx => ha x (by simp [hx]))

lemma findQuoted_of_no_quote (l : List Char) (h : ∀ c ∈ l, c ≠ '"') :
    findQuoted l = none := by
  induction l with
  | nil => rfl
  | cons c cs ih =>
      have hc := h c (by simp)
      simp only [findQuoted, if_neg hc]
      exact ih (fun x hx => h x (by simp [hx]))

lemma findQuoted_found (a n b : List Char) (ha : ∀ c ∈ a, c ≠ '"')
    (hn : ∀ c ∈ n, c ≠ '"' ∧ c ≠ '\n') :
    findQuoted (a ++ '"' :: (n ++ '"' :: b)) = some ('"' :: (n ++ ['"'])) := by
  rw [findQuoted_skip a _ ha]
  have hcq := closeQuote_append n b hn
  simp [findQuoted, hcq]

lemma filter_no_quote (n : List Char) (hn : ∀ c ∈ n, c ≠ '"') :
    (('"' :: (n ++ ['"'])).filter (fun c => c ≠ '"')) = n := by
  have h1 : ∀ c ∈ n, (fun c => decide (c ≠ '"')) c = true := by
    intro c hc; simpa using hn c hc
  have h2 : n.filter (fun c => decide (c ≠ '"')) = n := List.filter_eq_self.mpr h1
  simp [List.filter_append, h2]
  exact fun a ha => hn a ha

/-! ### Claim theorems -/

/-- Claim C3: on the document `[(1.0, Item "a"), (3.0, Item "b")]` the rate
computation yields `[(1.0, 25.0, name "a"), (3.0, 75.0, name "b")]` in that
order; in general each output entry carries its input weight and
`percentage = weight / totalWeight * 100`, and output position `i` is computed
from input position `i` (rayon's ordered collect makes the output order
independent of the completion order of the parallel name resolutions). -/
theorem computeRates_pointwise (resolve : LootSpec → Except Unit String)
    (loots : List (ℚ × LootSpec)) (i : Nat) (w : ℚ) (s : LootSpec)
    (h : loots.get? i = some (w, s)) :
    rateRon (.ok [(1, .Item "a"), (3, .Item "b")]) resolve
      = [(1, 25, unwrapOr (resolve (.Item "a"))), (3, 75, unwrapOr (resolve (.Item "b")))]
    ∧ (rateRon (.ok loots) resolve).length = loots.length
    ∧ (rateRon (.ok loots) resolve).get? i
        = some (w, w / (loots.map Prod.fst).sum * 100, unwrapOr (resolve s)) := by
  refine ⟨?_, by simpa using rateRon_len (.ok loots) resolve,
    rateRon_get? loots resolve i w s h⟩
  simp [rateRon]
  norm_num

/-- A resolver that always succeeds, used to instantiate claim theorems. -/
def okResolve : LootSpec → Except Unit String := fun _ => .ok "n"

/-- A resolver that always fails, used to instantiate claim theorems. -/
def failResolve : LootSpec → Except Unit String := fun _ => .error ()

/-- A one-entry parsed document, used to instantiate claim theorems. -/
def oneLoot : List (ℚ × LootSpec) := [(2, .Nothing)]

theorem computeRates_pointwise_witness :
    oneLoot.get? 0 = some (2, .Nothing)
    ∧ (rateRon (.ok [(1, .Item "a"), (3, .Item "b")]) okResolve
        = [(1, 25, unwrapOr (okResolve (.Item "a"))), (3, 75, unwrapOr (okResolve (.Item "b")))]
      ∧ (rateRon (.ok oneLoot) okResolve).length = oneLoot.length
      ∧ (rateRon (.ok oneLoot) okResolve).get? 0
          = some (2, 2 / (oneLoot.map Prod.fst).sum * 100, unwrapOr (okResolve .Nothing))) :=
  ⟨rfl, computeRates_pointwise okResolve oneLoot 0 2 .Nothing rfl⟩

/-- Claim C7: an entry whose name resolution fails still appears in the
output, with its weight and percentage intact and the sentinel `"无"` as its
name; every other entry of the same batch is still resolved and returned at
its own position. -/
theorem entry_failure_isolated (resolve : LootSpec → Except Unit String)
    (loots : List (ℚ × LootSpec)) (i : Nat) (w : ℚ) (s : LootSpec)
    (h : loots.get? i = some (w, s)) (hfail : resolve s = .error ()) :
    (rateRon (.ok loots) resolve).length = loots.length
    ∧ (rateRon (.ok loots) resolve).get? i
        = some (w, w / (loots.map Prod.fst).sum * 100, "无")
    ∧ ∀ j wj sj, loots.get? j = some (wj, sj) →
        (rateRon (.ok loots) resolve).get? j
          = some (wj, wj / (loots.map Prod.fst).sum * 100, unwrapOr (resolve sj)) := by
  refine ⟨by simpa using rateRon_len (.ok loots) resolve, ?_,
    fun j wj sj hj => rateRon_get? loots resolve j wj sj hj⟩
  rw [rateRon_get? loots resolve i w s h, hfail]
  rfl

theorem entry_failure_isolated_witness :
    oneLoot.get? 0 = some (2, .Nothing)
    ∧ failResolve .Nothing = .error ()
    ∧ ((rateRon (.ok oneLoot) failResolve).length = oneLoot.length
      ∧ (rateRon (.ok oneLoot) failResolve).get? 0
          = some (2, 2 / (oneLoot.map Prod.fst).sum * 100, "无")
      ∧ ∀ j wj sj, oneLoot.get? j = some (wj, sj) →
          (rateRon (.ok oneLoot) failResolve).get? j
            = some (wj, wj / (oneLoot.map Prod.fst).sum * 100, unwrapOr (failResolve sj))) :=
  ⟨rfl, rfl, entry_failure_isolated failResolve oneLoot 0 2 .Nothing rfl rfl⟩

/-- Claim C8: a file whose fetch-and-parse fails is replaced by the empty
entry list: it still appears in the tier's output at its own position, paired
with an empty rate table, and the other files are unaffected (the computation
is a total function, so no crash propagates). -/
theorem file_failure_isolated (parseFn : String → String → Except Unit (List (ℚ × LootSpec)))
    (resolve : LootSpec → Except Unit String) (tier : String)
    (rons : List String) (i : Nat) (ron : String)
    (h : rons.get? i = some ron) (hfail : parseFn tier ron = .error ()) :
    (computeTier parseFn resolve tier rons).length = rons.length
    ∧ (computeTier parseFn resolve tier rons).get? i = some (ron, []) := by
  constructor
  · simp [computeTier]
  · simp only [computeTier, List.get?_map, h, Option.map_some']
    rw [hfail]
    rfl

/-- A parse oracle that always fails, used to instantiate claim theorems. -/
def failParse : String → String → Except Unit (List (ℚ × LootSpec)) :=
  fun _ _ => .error ()

theorem file_failure_isolated_witness :
    ["a.ron"].get? 0 = some "a.ron"
    ∧ failParse "tier-0" "a.ron" = .error ()
    ∧ ((computeTier failParse okResolve "tier-0" ["a.ron"]).length = ["a.ron"].length
      ∧ (computeTier failParse okResolve "tier-0" ["a.ron"]).get? 0 = some ("a.ron", [])) :=
  ⟨rfl, rfl, file_failure_isolated failParse okResolve "tier-0" ["a.ron"] 0 "a.ron" rfl rfl⟩

/-- A fetch oracle whose every document carries the quoted name
`"Iron Sword"`, used as the concrete input refuting claim C4. -/
def ironFetch : String → Except Unit String := fun _ => .ok "name: \"Iron Sword\","

/-- Claim C4, counterexample: with a fetch oracle under which item `"x"`
resolves to `"Iron Sword"`, `parse_name` on `ItemQuantity "x" 2 5` returns
plain `"Iron Sword"`, not `"Iron Sword (2 ~ 5)"`: the quantity bounds are
bound as `_min`/`_max` at `src/main.rs` line 214 and never used, so no range
suffix is ever appended. -/
theorem quantity_suffix_cex :
    parse_name ironFetch (.Item "x") = .ok "Iron Sword"
    ∧ parse_name ironFetch (.ItemQuantity "x" 2 5) = .ok "Iron Sword"
    ∧ parse_name ironFetch (.ItemQuantity "x" 2 5) ≠ .ok "Iron Sword (2 ~ 5)" :=
  ⟨rfl, rfl, by
    have hv : parse_name ironFetch (.ItemQuantity "x" 2 5) = .ok "Iron Sword" := rfl
    rw [hv]
    simp⟩

/-- Claim C4, amended: name resolution ignores the quantity range of an
`ItemQuantity` spec entirely — it returns exactly the name resolved for the
underlying item, with no `(min ~ max)` suffix appended. -/
theorem quantity_range_ignored (fetch : String → Except Unit String)
    (item : String) (mn mx : Nat) :
    parse_name fetch (.ItemQuantity item mn mx) = parse_name fetch (.Item item) := rfl

/-- Claim C6: `parse_name` case analysis.  A `LootTable` reference returns the
constant bundle label `"道具包"` with no fetch; `Nothing` returns the constant
empty label `"无"` with no fetch; an `Item` fetches the item definition and
returns the first quoted string literal (leftmost pair of quotes on one line),
quotes stripped; a document with no quoted string yields the sentinel
`"无"`. -/
theorem parse_name_case_analysis (fetch : String → Except Unit String)
    (idA idB : String) (a n b : List Char) (body noq : String)
    (h1 : fetch (itemUrl idA) = .ok body)
    (h2 : body.data = a ++ '"' :: (n ++ '"' :: b))
    (ha : ∀ c ∈ a, c ≠ '"')
    (hn : ∀ c ∈ n, c ≠ '"' ∧ c ≠ '\n')
    (h3 : fetch (itemUrl idB) = .ok noq)
    (h4 : ∀ c ∈ noq.data, c ≠ '"') :
    (∀ x, parse_name fetch (.LootTable x) = .ok "道具包" ∧ specFetches (.LootTable x) = 0)
    ∧ (parse_name fetch .Nothing = .ok "无" ∧ specFetches .Nothing = 0)
    ∧ parse_name fetch (.Item idA) = .ok (String.mk n)
    ∧ parse_name fetch (.Item idB) = .ok "无" := by
  refine ⟨fun x => ⟨rfl, rfl⟩, ⟨rfl, rfl⟩, ?_, ?_⟩
  · show resolveItemName fetch idA = .ok (String.mk n)
    simp only [resolveItemName, h1]
    rw [h2, findQuoted_found a n b ha hn]
    show Except.ok (String.mk (('"' :: (n ++ ['"'])).filter (fun c => c ≠ '"')))
        = Except.ok (String.mk n)
    rw [filter_no_quote n (fun c hc => (hn c hc).1)]
  · show resolveItemName fetch idB = .ok "无"
    simp only [resolveItemName, h3]
    rw [findQuoted_of_no_quote _ h4]

/-- A fetch oracle serving one document with a quoted name for item `"x"` and
one quote-free document for item `"y"`, used to instantiate claim C6. -/
def twoDocFetch : String → Except Unit String := fun u =>
  if u = itemUrl "x" then .ok "(\"Sword\")" else .ok "no quotes here"

theorem parse_name_case_analysis_witness :
    twoDocFetch (itemUrl "x") = .ok "(\"Sword\")"
    ∧ ("(\"Sword\")" : String).data
        = ['('] ++ '"' :: (['S','w','o','r','d'] ++ '"' :: [')'])
    ∧ (∀ c ∈ ['('], c ≠ '"')
    ∧ (∀ c ∈ ['S','w','o','r','d'], c ≠ '"' ∧ c ≠ '\n')
    ∧ twoDocFetch (itemUrl "y") = .ok "no quotes here"
    ∧ (∀ c ∈ ("no quotes here" : String).data, c ≠ '"')
    ∧ ((∀ x, parse_name twoDocFetch (.LootTable x) = .ok "道具包"
          ∧ specFetches (.LootTable x) = 0)
      ∧ (parse_name twoDocFetch .Nothing = .ok "无" ∧ specFetches .Nothing = 0)
      ∧ parse_name twoDocFetch (.Item "x") = .ok (String.mk ['S','w','o','r','d'])
      ∧ parse_name twoDocFetch (.Item "y") = .ok "无") :=
  ⟨rfl, rfl, by decide, by decide, rfl, by decide,
    parse_name_case_analysis twoDocFetch "x" "y" ['('] ['S','w','o','r','d'] [')']
      "(\"Sword\")" "no quotes here" rfl rfl (by decide) (by decide) rfl (by decide)⟩

/-- Claim C1: for a key whose background listing job is still pending, the
first query joins the job exactly once (`joins = 1`), removes the key from the
future map, and stores the joined value in the listing cache; the second query
hits the cache: it returns the identical value, performs no join, and leaves
both maps unchanged — so every later query for the key behaves the same, and
the key's `InFlight` state transitions to `Ready` exactly once with at most
one underlying directory-listing fetch (the one owned by the joined job). -/
theorem resolveFiles_at_most_once (fut : FutMap) (cache : CacheMap)
    (choice : String) (job : Except Unit Listing)
    (h : fut choice = some job) :
    (resolveFiles fut cache choice).joins = 1
    ∧ (resolveFiles fut cache choice).fut choice = none
    ∧ (resolveFiles fut cache choice).cache choice
        = some (some (resolveFiles fut cache choice).value)
    ∧ resolveFiles (resolveFiles fut cache choice).fut
        (resolveFiles fut cache choice).cache choice
      = { value := (resolveFiles fut cache choice).value
          fut := (resolveFiles fut cache choice).fut
          cache := (resolveFiles fut cache choice).cache
          joins := 0 } := by
  simp [resolveFiles, h]

/-- A startup-shaped state holding one pending listing job under key `"T1"`,
used to instantiate claim C1. -/
def oneFut : FutMap := fun k => if k = "T1" then some (.ok ("tier-0", ["a.ron"])) else none

/-- The listing cache as initialised at startup for key `"T1"`. -/
def oneCache : CacheMap := fun k => if k = "T1" then some none else none

theorem resolveFiles_at_most_once_witness :
    oneFut "T1" = some (.ok ("tier-0", ["a.ron"]))
    ∧ ((resolveFiles oneFut oneCache "T1").joins = 1
      ∧ (resolveFiles oneFut oneCache "T1").fut "T1" = none
      ∧ (resolveFiles oneFut oneCache "T1").cache "T1"
          = some (some (resolveFiles oneFut oneCache "T1").value)
      ∧ resolveFiles (resolveFiles oneFut oneCache "T1").fut
          (resolveFiles oneFut oneCache "T1").cache "T1"
        = { value := (resolveFiles oneFut oneCache "T1").value
            fut := (resolveFiles oneFut oneCache "T1").fut
            cache := (resolveFiles oneFut oneCache "T1").cache
            joins := 0 }) :=
  ⟨rfl, resolveFiles_at_most_once oneFut oneCache "T1" (.ok ("tier-0", ["a.ron"])) rfl⟩

/-- Claim C2: after a tier's rate table has been computed and published into
the rate cache, a repeated query for that tier returns the identical value
directly from the cache, with zero network fetches (no parse fetch, no name
resolution fetch) and no change to the cache. -/
theorem rate_cache_warm (rc : RateMap) (tier : String) (rons : List String)
    (parseFn : String → String → Except Unit (List (ℚ × LootSpec)))
    (resolve : LootSpec → Except Unit String)
    (h : rc tier = none) :
    resolveRates (resolveRates rc tier rons parseFn resolve).rc tier rons parseFn resolve
      = { value := (resolveRates rc tier rons parseFn resolve).value
          rc := (resolveRates rc tier rons parseFn resolve).rc
          fetches := 0 } := by
  simp [resolveRates, h]

theorem rate_cache_warm_witness :
    (fun (_ : String) => (none : Option RateTable)) "T1" = none
    ∧ resolveRates (resolveRates (fun _ => none) "T1" ["a.ron"] failParse okResolve).rc
        "T1" ["a.ron"] failParse okResolve
      = { value := (resolveRates (fun _ => none) "T1" ["a.ron"] failParse okResolve).value
          rc := (resolveRates (fun _ => none) "T1" ["a.ron"] failParse okResolve).rc
          fetches := 0 } :=
  ⟨rfl, rate_cache_warm (fun _ => none) "T1" ["a.ron"] failParse okResolve rfl⟩

/-- Claim C9: a key that is neither a pending background job nor a cached
listing resolves to the empty value `("", [])` with no join, and the rate
stage on that empty result (tier `""`, no files) yields an empty rate table
with zero fetches; both stages are total functions, so no error surfaces to
the session loop. -/
theorem unrecognized_key_empty (fut : FutMap) (cache : CacheMap) (rc : RateMap)
    (parseFn : String → String → Except Unit (List (ℚ × LootSpec)))
    (resolve : LootSpec → Except Unit String) (choice : String)
    (h1 : fut choice = none)
    (h2 : ∀ v, cache choice ≠ some (some v))
    (h3 : rc "" = none) :
    (resolveFiles fut cache choice).value = ("", [])
    ∧ (resolveFiles fut cache choice).joins = 0
    ∧ (resolveRates rc (resolveFiles fut cache choice).value.1
        (resolveFiles fut cache choice).value.2 parseFn resolve).value = []
    ∧ (resolveRates rc (resolveFiles fut cache choice).value.1
        (resolveFiles fut cache choice).value.2 parseFn resolve).fetches = 0 := by
  have hfiles : resolveFiles fut cache choice
      = { value := ("", []), fut := fut, cache := cache, joins := 0 } := by
    rw [resolveFiles, h1]
    match hc : cache choice with
    | none => rfl
    | some none => rfl
    | some (some v) => exact absurd hc (h2 v)
  rw [hfiles]
  refine ⟨rfl, rfl, ?_, ?_⟩ <;>
    simp [resolveRates, h3, computeTier, tierFetches]

/-- An empty pipeline state, used to instantiate claim C9. -/
def emptyFut : FutMap := fun _ => none

/-- An empty listing cache, used to instantiate claim C9. -/
def emptyCache : CacheMap := fun _ => none

/-- An empty rate cache, used to instantiate claim C9. -/
def emptyRc : RateMap := fun _ => none

theorem unrecognized_key_empty_witness :
    emptyFut "bogus" = none
    ∧ (∀ v, emptyCache "bogus" ≠ some (some v))
    ∧ emptyRc "" = none
    ∧ ((resolveFiles emptyFut emptyCache "bogus").value = ("", [])
      ∧ (resolveFiles emptyFut emptyCache "bogus").joins = 0
      ∧ (resolveRates emptyRc (resolveFiles emptyFut emptyCache "bogus").value.1
          (resolveFiles emptyFut emptyCache "bogus").value.2 failParse okResolve).value = []
      ∧ (resolveRates emptyRc (resolveFiles emptyFut emptyCache "bogus").value.1
          (resolveFiles emptyFut emptyCache "bogus").value.2 failParse okResolve).fetches = 0) :=
  ⟨rfl, fun v h => by simp [emptyCache] at h, rfl,
    unrecognized_key_empty emptyFut emptyCache emptyRc failParse okResolve "bogus"
      rfl (fun v h => by simp [emptyCache] at h) rfl⟩

/-- Claim C10: tier-key normalization is total only when every dashed tier
name has a valid `i32` as the piece after the first dash: a dashed name whose
second piece does not parse as `i32` (for example `"tier-a"`) makes the
startup loop's `unwrap` panic, modelled here as `none`, while a valid piece
`n` whose `i32` increment does not overflow maps to the key `T(n+1)`. -/
theorem tier_key_normalization (tier tier2 : String) (n : Int)
    (hd : tier.data.contains '-' = true)
    (hbad : parseI32 (String.mk ((splitDash tier.data).getD 1 [])) = none)
    (hd2 : tier2.data.contains '-' = true)
    (hgood : parseI32 (String.mk ((splitDash tier2.data).getD 1 [])) = some n)
    (hrange : -(2 ^ 31) ≤ n + 1 ∧ n + 1 ≤ 2 ^ 31 - 1) :
    normalizeKey tier = none
    ∧ normalizeKey tier2 = some ("T" ++ toString (n + 1)) := by
  constructor
  · rw [normalizeKey, if_pos hd]
    simp only [hbad]
  · rw [normalizeKey, if_pos hd2]
    simp only [hgood, i32Add, if_pos hrange]

theorem tier_key_normalization_witness :
    ("tier-a" : String).data.contains '-' = true
    ∧ parseI32 (String.mk ((splitDash ("tier-a" : String).data).getD 1 [])) = none
    ∧ ("tier-0" : String).data.contains '-' = true
    ∧ parseI32 (String.mk ((splitDash ("tier-0" : String).data).getD 1 [])) = some 0
    ∧ (-(2 ^ 31) ≤ (0 : Int) + 1 ∧ (0 : Int) + 1 ≤ 2 ^ 31 - 1)
    ∧ (normalizeKey "tier-a" = none
      ∧ normalizeKey "tier-0" = some ("T" ++ toString ((0 : Int) + 1))) :=
  ⟨by decide, by decide, by decide, by decide, by decide,
    tier_key_normalization "tier-a" "tier-0" 0 (by decide) (by decide) (by decide) (by decide)
      (by decide)⟩

end Reward
